import Mathlib

/-!
A verification development for the RadioWave client-side radio app.

The JavaScript modules (`api.js`, `favorites.js`, `app.js`, `player.js`,
`stations.js`, `dialog.js`) are shallowly embedded: module-level mutable
variables become fields of explicit state structures, event handlers and
promise callbacks become functions on those states, JS strings become
`String`/`List Char`, JS `Set`/plain objects become duplicate-free lists
and association lists (in insertion order, as JS preserves it), and
`localStorage` is modelled as holding the structured values that the code
serializes to JSON (the JSON layer itself is assumed faithful).

JS truthiness on strings ("" is falsy) is modelled by `jsOr`; numeric
truthiness (0 is falsy) by `jsOrNat`.
-/

namespace Radio

/-- JS `a || b` for strings: the empty string is falsy. -/
def jsOr (a b : String) : String := if a = "" then b else a

/-- JS `a || b` for non-negative numbers: 0 is falsy. -/
def jsOrNat (a b : Nat) : Nat := if a = 0 then b else a

/-- Boolean prefix test on character lists. -/
def isPrefixB : List Char → List Char → Bool
  | [], _ => true
  | _ :: _, [] => false
  | a :: as, b :: bs => a == b && isPrefixB as bs

/-- Boolean substring test on character lists (needle first). -/
def includesB (n : List Char) : List Char → Bool
  | [] => n.isEmpty
  | b :: bs => isPrefixB n (b :: bs) || includesB n bs

/-- JS `hay.includes(needle)` on strings. -/
def jsIncludes (hay needle : String) : Bool := includesB needle.data hay.data

/-- JS `s.toLowerCase()` (ASCII range; all genre keywords are ASCII). -/
def jsToLower (s : String) : String := String.mk (s.data.map Char.toLower)

/-- Split a character list at every occurrence of `c` (JS `s.split(c)`;
splitting the empty string yields `[""]`, as in JS). -/
def splitOnChar (c : Char) : List Char → List (List Char)
  | [] => [[]]
  | a :: as =>
    match splitOnChar c as, decide (a = c) with
    | r, true => [] :: r
    | [], false => [[a]]
    | h :: t, false => (a :: h) :: t

/-- JS `s.split(sep)` for a one-character separator. -/
def jsSplit (s : String) (c : Char) : List String :=
  (splitOnChar c s.data).map String.mk

/-- JS `s.trim()`: strip leading and trailing whitespace. -/
def jsTrim (s : String) : String :=
  String.mk (((s.data.dropWhile Char.isWhitespace).reverse.dropWhile Char.isWhitespace).reverse)

/-! ## Data model: normalized stations (api.js `normalize`) -/

/-- Internal station format produced by `RadioAPI.normalize` and stored in
favourites.  `favLanguage` is `none` when the JS object lacks the property. -/
structure Station where
  id : String
  name : String
  logo : String
  country : String
  countryCode : String
  language : String
  genre : String
  tags : List String
  url : String
  homepage : String
  bitrate : Nat
  codec : String
  votes : Nat
  clickCount : Nat
  favLanguage : Option String := none
  deriving Repr, DecidableEq

/-- Raw Radio-Browser API station object.  A missing / empty JS field is
modelled by `""` (or `0`): both are falsy, and the code only ever reads
these fields through `||` fallbacks, `.split`, or direct copies. -/
structure RawStation where
  stationuuid : String
  name : String := ""
  favicon : String := ""
  country : String := ""
  countrycode : String := ""
  language : String := ""
  tags : String := ""
  url_resolved : String := ""
  url : String := ""
  homepage : String := ""
  bitrate : Nat := 0
  codec : String := ""
  votes : Nat := 0
  clickcount : Nat := 0
  deriving Repr, DecidableEq

namespace RadioAPI

/-- api.js `mapGenre`: map a raw tag string to one of the predefined genres. -/
def mapGenre (tags : String) : String :=
  let t := jsToLower tags
  if jsIncludes t "jazz" || jsIncludes t "blues" then "Jazz"
  else if jsIncludes t "class" then "Classical"
  else if jsIncludes t "rock" || jsIncludes t "metal" || jsIncludes t "punk" then "Rock"
  else if jsIncludes t "electronic" || jsIncludes t "edm" || jsIncludes t "dance" || jsIncludes t "techno" then "Electronic"
  else if jsIncludes t "news" || jsIncludes t "talk" || jsIncludes t "speech" then "News"
  else if jsIncludes t "pop" || jsIncludes t "hit" then "Pop"
  else if jsIncludes t "local" || jsIncludes t "regional" then "Local"
  else "Various"

/-- The fixed genre vocabulary `mapGenre` draws from. -/
def GENRES : List String :=
  ["Jazz", "Classical", "Rock", "Electronic", "News", "Pop", "Local", "Various"]

/-- api.js `normalize`: convert a raw API station to the internal format. -/
def normalize (s : RawStation) : Station where
  id := "api-" ++ s.stationuuid
  name := jsOr s.name "Unknown"
  logo := jsOr s.favicon ""
  country := jsOr s.country ""
  countryCode := jsOr s.countrycode ""
  language := jsOr s.language ""
  genre := mapGenre (jsOr s.tags "")
  tags := (((jsSplit (jsOr s.tags "") ',').map jsTrim).filter (fun t => t != "")).take 5
  url := jsOr (jsOr s.url_resolved s.url) ""
  homepage := jsOr s.homepage ""
  bitrate := jsOrNat s.bitrate 0
  codec := jsOr s.codec ""
  votes := jsOrNat s.votes 0
  clickCount := jsOrNat s.clickcount 0
  favLanguage := none

/-- api.js `search`, final step: `raw.map(normalize).filter(s => s.url)`
(a JS string is truthy iff non-empty). -/
def searchResults (raw : List RawStation) : List Station :=
  (raw.map normalize).filter (fun s => s.url != "")

/-- api.js `search`, query branch: merge the settled name-search and
tag-search responses (`none` = the request rejected, so `Promise.allSettled`
contributes `[]`), deduplicating tag results against the name results'
`stationuuid` set. -/
def mergeRaw (nameRes tagRes : Option (List RawStation)) : List RawStation :=
  let byName := nameRes.getD []
  let byTag := tagRes.getD []
  let seen := byName.map (fun s => s.stationuuid)
  byName ++ byTag.filter (fun s => !(seen.contains s.stationuuid))

end RadioAPI

namespace Favorites

/-- Update a JS plain object used as a map (insertion order preserved:
assigning an existing key keeps its position, a new key is appended). -/
def objSet (m : List (String × Station)) (k : String) (v : Station) : List (String × Station) :=
  if m.any (fun p => p.1 == k) then
    m.map (fun p => if p.1 == k then (k, v) else p)
  else m ++ [(k, v)]

/-- JS `delete m[k]`. -/
def objDelete (m : List (String × Station)) (k : String) : List (String × Station) :=
  m.filter (fun p => p.1 != k)

/-- JS `m[k]` as an option. -/
def objGet (m : List (String × Station)) (k : String) : Option Station :=
  (m.find? (fun p => p.1 == k)).map Prod.snd

/-- JS `set.add x` on an insertion-ordered duplicate-free list. -/
def setAdd (l : List String) (x : String) : List String :=
  if l.contains x then l else l ++ [x]

/-- favorites.js state.  `favIds` / `extraMap` are the in-memory module
variables; `storedIds` / `storedExtra` are what `localStorage` currently
holds under `radiowave_favourites` / `radiowave_extra_stations`
(as the structured values the code writes there via JSON). -/
structure FavStore where
  favIds : List String
  extraMap : List (String × Station)
  storedIds : List String
  storedExtra : List (String × Station)
  deriving Repr, DecidableEq

/-- favorites.js `DEFAULT_EXTRA`: the four permanently seeded stations. -/
def DEFAULT_EXTRA : List (String × Station) :=
  [("api-96683d44-c7f1-47d3-a9c5-f7d0c65d8b66",
    { id := "api-96683d44-c7f1-47d3-a9c5-f7d0c65d8b66", name := "Zaycev.FM Relax",
      logo := "https://pcradio.ru/images/stations/61b09c6e8cebd.jpg",
      country := "The Russian Federation", countryCode := "RU", language := "",
      genre := "Various", tags := ["chill", "lounge", "relax"],
      url := "https://abs.zaycev.fm/relax128k", homepage := "https://www.zaycev.fm/relax",
      bitrate := 0, codec := "MP3", votes := 53, clickCount := 5,
      favLanguage := some "Russian" }),
   ("api-c004dd47-2dab-47af-bdad-6c9226ea5b3b",
    { id := "api-c004dd47-2dab-47af-bdad-6c9226ea5b3b", name := "Zaycev.FM NewRock",
      logo := "https://top-radio.ru/assets/image/radio/180/zaycev-new-rock.jpg",
      country := "The Russian Federation", countryCode := "RU", language := "",
      genre := "Rock", tags := ["alternative rock", "rock"],
      url := "https://abs.zaycev.fm/rock128k", homepage := "https://www.zaycev.fm/rock",
      bitrate := 0, codec := "MP3", votes := 22, clickCount := 1,
      favLanguage := some "Russian" }),
   ("api-32fc6c88-c5cb-4e5c-aecf-833bfe89eaf1",
    { id := "api-32fc6c88-c5cb-4e5c-aecf-833bfe89eaf1", name := "Zaycev.FM Pop",
      logo := "https://pcradio.ru/images/stations/61b09c69159cc.jpg",
      country := "The Russian Federation", countryCode := "RU", language := "",
      genre := "Pop", tags := ["hits", "pop music"],
      url := "https://abs.zaycev.fm/pop128k", homepage := "https://www.zaycev.fm/pop",
      bitrate := 0, codec := "MP3", votes := 33, clickCount := 0,
      favLanguage := some "Russian" }),
   ("api-9606f727-0601-11e8-ae97-52543be04c81",
    { id := "api-9606f727-0601-11e8-ae97-52543be04c81", name := "1LIVE",
      logo := "https://www1.wdr.de/radio/1live/resources/img/favicon/apple-touch-icon.png",
      country := "Germany", countryCode := "DE", language := "german",
      genre := "Rock", tags := ["ard", "public radio", "rock", "top 40", "wdr"],
      url := "http://wdr-1live-live.icecast.wdr.de/wdr/1live/live/mp3/128/stream.mp3",
      homepage := "https://einslive.de/",
      bitrate := 128, codec := "MP3", votes := 29899, clickCount := 252,
      favLanguage := some "German" })]

/-- favorites.js `DEFAULT_IDS = Object.keys(DEFAULT_EXTRA)`. -/
def DEFAULT_IDS : List String := DEFAULT_EXTRA.map Prod.fst

/-- favorites.js `isDefault`. -/
def isDefault (id : String) : Bool := DEFAULT_IDS.contains id

/-- favorites.js `seedDefaults` body (the `DEFAULTS_KEY` first-visit guard is
handled by the caller): merge the defaults into whatever is stored, then save. -/
def seedDefaults (st : FavStore) : FavStore :=
  let extra := DEFAULT_EXTRA.foldl (fun m p => objSet m p.1 p.2) st.extraMap
  let ids := DEFAULT_IDS.foldl setAdd st.favIds
  { favIds := ids, extraMap := extra, storedIds := ids, storedExtra := extra }

/-- favorites.js `toggle(id, stationObj, favLanguage)`.
`stationObj = none` models a call without the argument (`undefined`),
`favLanguage = none` a missing language (JS `favLanguage || 'other'`). -/
def toggle (st : FavStore) (id : String) (stationObj : Option Station)
    (favLanguage : Option String) : FavStore :=
  if st.favIds.contains id then
    -- Default stations are permanent — cannot be removed
    if DEFAULT_IDS.contains id then st
    else
      let st1 := { st with favIds := st.favIds.filter (fun x => x != id) }
      let st2 :=
        if (objGet st1.extraMap id).isSome then
          let em := objDelete st1.extraMap id
          { st1 with extraMap := em, storedExtra := em }  -- saveExtra
        else st1
      { st2 with storedIds := st2.favIds }                -- saveIds
  else
    let st1 := { st with favIds := setAdd st.favIds id }
    let st2 :=
      match stationObj with
      | some obj =>
          let em := objSet st1.extraMap id
            { obj with favLanguage := some (jsOr (favLanguage.getD "") "other") }
          { st1 with extraMap := em, storedExtra := em }  -- saveExtra
      | none => st1
    { st2 with storedIds := st2.favIds }                  -- saveIds

/-- favorites.js `getSavedStations`: `Object.values(extraMap)` restricted to
current favourites, with `favLanguage` defaulted to `'other'` for legacy
entries (`{ favLanguage: 'other', ...s }`: the spread wins when present). -/
def getSavedStations (st : FavStore) : List Station :=
  ((st.extraMap.map Prod.snd).filter (fun s => st.favIds.contains s.id)).map
    (fun s => { s with favLanguage := some (s.favLanguage.getD "other") })

/-- A page reload re-runs `loadIds` / `loadExtra` against the stored values. -/
def reloadStore (st : FavStore) : FavStore :=
  { favIds := st.storedIds, extraMap := st.storedExtra,
    storedIds := st.storedIds, storedExtra := st.storedExtra }

/-- A sequence of `toggle` calls, in order. -/
def applyToggles (st : FavStore) (calls : List (String × Option Station × Option String)) :
    FavStore :=
  calls.foldl (fun s c => toggle s c.1 c.2.1 c.2.2) st

end Favorites

namespace App

/-- A timer created by `setTimeout` in `bindSearch`: its id, its delay in
milliseconds, and the trimmed query the callback will search for.  (The JS
callback reads the module variable `searchQuery` when it fires; `query`
records its trimmed value at scheduling time, which stays accurate because
every later input event cancels this timer before changing `searchQuery`.) -/
structure Timer where
  id : Nat
  delay : Nat
  query : String
  deriving Repr, DecidableEq

/-- app.js module state (DOM-free parts).  `timers` is the set of live
debounce timers, `searchDebounce` the id stored in the module variable,
`nextId` a fresh timer id supply.  `displayed` is `displayedStations`,
`playlist` what was last handed to `Player.setPlaylist`, `rendered` what was
last handed to `StationsUI.render`. -/
structure AppState where
  store : Favorites.FavStore
  savedApiPool : List Station
  displayed : List Station
  playlist : List Station
  rendered : List Station
  activeLanguage : String
  searchQuery : String
  showingFavourites : Bool
  searchDebounce : Option Nat
  timers : List Timer
  nextId : Nat
  deriving Repr, DecidableEq

/-- The pool computed by app.js `showFavourites`: saved stations restricted to
current favourite ids, and — when a language tab other than `all` is active —
to those whose `favLanguage || 'other'` equals the active language. -/
def favouritesPool (fs : Favorites.FavStore) (lang : String) : List Station :=
  let pool0 := Favorites.getSavedStations fs
  let pool1 := pool0.filter (fun s => fs.favIds.contains s.id)
  if lang != "all" then
    pool1.filter (fun s => jsOr (s.favLanguage.getD "") "other" == lang)
  else pool1

/-- app.js `showFavourites`: refresh `savedApiPool`, filter it, and hand the
result to `Player.setPlaylist` and `StationsUI.render`. -/
def showFavourites (st : AppState) : AppState :=
  let pool := favouritesPool st.store st.activeLanguage
  { st with savedApiPool := Favorites.getSavedStations st.store,
            displayed := pool, playlist := pool, rendered := pool }

/-- app.js `enterFavouritesMode`: set the mode flag, reset the language tab
to `all`, and render the favourites. -/
def enterFavouritesMode (st : AppState) : AppState :=
  showFavourites { st with showingFavourites := true, activeLanguage := "all" }

/-- app.js `leaveFavouritesMode`: clear the mode flag and reset the language
tab to `all`. -/
def leaveFavouritesMode (st : AppState) : AppState :=
  { st with showingFavourites := false, activeLanguage := "all" }

/-- The `input` handler installed by app.js `bindSearch`: record the raw
value, cancel the pending debounce timer (`clearTimeout(searchDebounce)`),
return to favourites when the trimmed value is empty, otherwise leave
favourites mode if needed and schedule a new debounced search 320 ms out. -/
def onInput (st : AppState) (value : String) : AppState :=
  let st1 := { st with searchQuery := value }
  let st2 := { st1 with timers := st1.timers.filter (fun t => !(st1.searchDebounce == some t.id)) }
  if jsTrim value = "" then
    enterFavouritesMode st2
  else
    let st3 := if st2.showingFavourites then leaveFavouritesMode st2 else st2
    { st3 with timers := st3.timers ++ [⟨st3.nextId, 320, jsTrim value⟩],
               searchDebounce := some st3.nextId,
               nextId := st3.nextId + 1 }

/-- The clear-search button handler in `bindSearch` (it does not touch the
debounce timer in the source, and neither does this model). -/
def onClearClick (st : AppState) : AppState :=
  enterFavouritesMode { st with searchQuery := "" }

/-- The header heart-button handler installed by `bindFavToggle`. -/
def onFavToggleClick (st : AppState) : AppState :=
  enterFavouritesMode { st with searchQuery := "" }

/-- app.js `boot` (DOM-free parts): fresh module state, re-hydrate
`savedApiPool`, then enter favourites mode. -/
def bootState (fs : Favorites.FavStore) : AppState :=
  enterFavouritesMode
    { store := fs, savedApiPool := Favorites.getSavedStations fs,
      displayed := [], playlist := [], rendered := [],
      activeLanguage := "all", searchQuery := "", showingFavourites := false,
      searchDebounce := none, timers := [], nextId := 0 }

/-- A sequence of search-input events applied in order. -/
def runInputs (fs : Favorites.FavStore) (events : List String) : AppState :=
  events.foldl onInput (bootState fs)

end App

namespace Player

/-- The four values `setStatus` is called with. -/
inductive PStatus where
  | idle | loading | live | error
  deriving Repr, DecidableEq

/-- player.js `MAX_RETRIES`. -/
def MAX_RETRIES : Nat := 2

/-- The retry-relevant part of the player state during one `play(station)`
call: the `_retryCount` module variable, the current status, and how many
retry `audio.play()` calls have been scheduled. -/
structure RetryState where
  retryCount : Nat
  status : PStatus
  retriesAttempted : Nat
  deriving Repr, DecidableEq

/-- `play` entry: `_retryCount = 0; setStatus('loading')`. -/
def playInit : RetryState := { retryCount := 0, status := PStatus.loading, retriesAttempted := 0 }

/-- The `.catch` handler on the initial play promise: retry (via
`setTimeout`) while `_retryCount < MAX_RETRIES`, otherwise give up with
status `error`.  The returned flag says whether a retry was scheduled. -/
def onInitialReject (st : RetryState) : RetryState × Bool :=
  if st.retryCount < MAX_RETRIES then
    ({ st with retryCount := st.retryCount + 1,
               retriesAttempted := st.retriesAttempted + 1 }, true)
  else
    ({ st with status := PStatus.error }, false)

/-- The scheduled retry is `audio.play().catch(() => setStatus('error'))`:
on failure it only sets the status — it never schedules another attempt. -/
def retryOutcome (st : RetryState) (ok : Bool) : RetryState :=
  if ok then st else { st with status := PStatus.error }

/-- The whole promise chain of one `play(station)` call, given the outcome of
the initial `audio.play()` and (if one is scheduled) of the retry. -/
def playFlow (initialOk retryOk : Bool) : RetryState :=
  if initialOk then { playInit with status := PStatus.live }
  else
    let (st, scheduled) := onInitialReject playInit
    if scheduled then retryOutcome st retryOk else st

/-! ### Wake-lock lifecycle (player.js `requestWakeLock` / `releaseWakeLock`
and the audio event handlers wired in `init`). -/

/-- Observable wake-lock calls, for stating when each function is invoked. -/
inductive WLEvent where
  | requestCalled | releaseCalled
  deriving Repr, DecidableEq

/-- Player state for the playback/wake-lock lifecycle.  `wakeLock` is true
iff the `_wakeLock` module variable is non-null; `mediaPlaying` mirrors
`navigator.mediaSession.playbackState === 'playing'`. -/
structure PlayerState where
  isPlaying : Bool
  wakeLock : Bool
  mediaPlaying : Bool
  status : PStatus
  log : List WLEvent
  deriving Repr, DecidableEq

/-- player.js `requestWakeLock`: no-op when the API is unsupported; on a
granted request `_wakeLock` becomes non-null; a rejected request is silently
ignored. -/
def requestWakeLock (supported granted : Bool) (st : PlayerState) : PlayerState :=
  let st := { st with log := st.log ++ [WLEvent.requestCalled] }
  if supported && granted then { st with wakeLock := true } else st

/-- player.js `releaseWakeLock`: if `_wakeLock` is non-null, release it and
set it to null. -/
def releaseWakeLock (st : PlayerState) : PlayerState :=
  let st := { st with log := st.log ++ [WLEvent.releaseCalled] }
  if st.wakeLock then { st with wakeLock := false } else st

/-- The audio `'playing'` event handler from `init`. -/
def onPlaying (supported granted : Bool) (st : PlayerState) : PlayerState :=
  let st := { st with isPlaying := true, status := PStatus.live }
  let st := requestWakeLock supported granted st
  { st with mediaPlaying := true }

/-- The audio `'pause'` event handler from `init`. -/
def onPause (st : PlayerState) : PlayerState :=
  let st := { st with isPlaying := false }
  let st := releaseWakeLock st
  { st with mediaPlaying := false }

/-- The audio `'error'` event handler from `init`. -/
def onError (st : PlayerState) : PlayerState :=
  let st := { st with status := PStatus.error, isPlaying := false }
  let st := releaseWakeLock st
  { st with mediaPlaying := false }

/-- The `.then` continuation of the initial `audio.play()` in `play`. -/
def playThen (supported granted : Bool) (st : PlayerState) : PlayerState :=
  let st := { st with status := PStatus.live, isPlaying := true }
  let st := requestWakeLock supported granted st
  { st with mediaPlaying := true }

/-- `togglePlay` in the `_isPlaying` branch (toggling playback off). -/
def togglePlayPause (st : PlayerState) : PlayerState :=
  let st := { st with isPlaying := false, status := PStatus.idle }
  let st := releaseWakeLock st
  { st with mediaPlaying := false }

/-- The `.then` continuation of the resume branch of `togglePlay`. -/
def resumeThen (supported granted : Bool) (st : PlayerState) : PlayerState :=
  let st := { st with isPlaying := true, status := PStatus.live }
  let st := requestWakeLock supported granted st
  { st with mediaPlaying := true }

end Player

namespace StationsUI

/-- Global single-character replacement, i.e. `str.replace(/c/g, rep)`. -/
def replaceAllChar (c : Char) (rep : List Char) (l : List Char) : List Char :=
  l.flatMap (fun a => if a = c then rep else [a])

/-- stations.js `escapeHtml`, string case: the five global replacements in
source order (`&` first, then `<`, `>`, `"`, `'`). -/
def escapeHtmlChars (l : List Char) : List Char :=
  replaceAllChar '\'' ['&', '#', '0', '3', '9', ';']
    (replaceAllChar '"' ['&', 'q', 'u', 'o', 't', ';']
      (replaceAllChar '>' ['&', 'g', 't', ';']
        (replaceAllChar '<' ['&', 'l', 't', ';']
          (replaceAllChar '&' ['&', 'a', 'm', 'p', ';'] l))))

/-- stations.js `escapeHtml` on an actual string. -/
def escapeHtml (s : String) : String := String.mk (escapeHtmlChars s.data)

/-- The JS values `escapeHtml` distinguishes: strings, other non-nullish
values (numbers/booleans stand in for them), and `null`/`undefined`. -/
inductive JSVal where
  | str (s : String)
  | num (n : Int)
  | boolean (b : Bool)
  | null
  | undef
  deriving Repr, DecidableEq

/-- stations.js `escapeHtml` including its
`if (typeof str !== 'string') return str ?? ''` guard. -/
def escapeHtmlJS : JSVal → JSVal
  | JSVal.str s => JSVal.str (escapeHtml s)
  | JSVal.null => JSVal.str ""
  | JSVal.undef => JSVal.str ""
  | v => v

/-- The characters the claim says may not appear raw in escaped output. -/
def rawSpecials : List Char := ['<', '>', '"', '\'']

/-- No raw special character occurs in `l`. -/
def noRawSpecialsB (l : List Char) : Bool :=
  l.all (fun c => !(rawSpecials.contains c))

/-- The tails of the five entities, after their leading `&`. -/
def entityTails : List (List Char) :=
  [['a', 'm', 'p', ';'], ['l', 't', ';'], ['g', 't', ';'],
   ['q', 'u', 'o', 't', ';'], ['#', '0', '3', '9', ';']]

/-- Every `&` in `l` starts one of the entities
`&amp; &lt; &gt; &quot; &#039;`. -/
def ampOkB : List Char → Bool
  | [] => true
  | a :: rest =>
    if a = '&' then (entityTails.any (fun e => isPrefixB e rest)) && ampOkB rest
    else ampOkB rest

/-- The per-character effect of the five sequential replacements (proved
equal to `escapeHtmlChars` block-wise below): each special character maps to
its entity, every other character is untouched. -/
def escChar (a : Char) : List Char :=
  if a = '&' then ['&', 'a', 'm', 'p', ';']
  else if a = '<' then ['&', 'l', 't', ';']
  else if a = '>' then ['&', 'g', 't', ';']
  else if a = '"' then ['&', 'q', 'u', 'o', 't', ';']
  else if a = '\'' then ['&', '#', '0', '3', '9', ';']
  else [a]

end StationsUI

/-! ### Concrete fixtures used by witness instantiations -/

/-- A raw API station with an empty name and two tags. -/
def rawU1 : RawStation :=
  { stationuuid := "u1", name := "", tags := "pop,hits", url := "http://a" }

/-- A raw API station with no url at all. -/
def rawU2 : RawStation := { stationuuid := "u2" }

/-- A two-element raw API response. -/
def rawList1 : List RawStation := [rawU1, rawU2]

/-- Two distinct raw stations sharing one `stationuuid`. -/
def rawDupA : RawStation := { stationuuid := "x", name := "A", url := "http://a" }

/-- See `rawDupA`. -/
def rawDupB : RawStation := { stationuuid := "x", name := "B", url := "http://b" }

/-! ## Theorems -/

/-- Any single `toggle` call preserves membership of a default station id in
the favourites set. -/
theorem Favorites.toggle_keeps_default (st : Favorites.FavStore) (i : String)
    (obj : Option Station) (lang : Option String) (id : String)
    (hdef : Favorites.DEFAULT_IDS.contains id = true)
    (hmem : st.favIds.contains id = true) :
    (Favorites.toggle st i obj lang).favIds.contains id = true := by
  have hdef' : id ∈ Favorites.DEFAULT_IDS := by simpa using hdef
  have hmem' : id ∈ st.favIds := by simpa using hmem
  unfold Favorites.toggle
  split
  · split
    · exact hmem
    · rename_i hd
      have hne : id ≠ i := by
        intro h; subst h; exact hd (by simpa using hdef')
      dsimp only
      split <;> simp [List.mem_filter, hmem', bne_iff_ne, hne]
  · have hs : id ∈ Favorites.setAdd st.favIds i := by
      unfold Favorites.setAdd
      split
      · exact hmem'
      · exact List.mem_append_left _ hmem'
    cases obj <;> simpa using hs

/-- C8: Default stations are permanent favourites: a `toggle` on a default id
that is currently a favourite returns the state unchanged (no change to
`favIds`, `extraMap`, or the stored values), and along every sequence of
`toggle` calls a default id that is a favourite stays a favourite. -/
theorem claim_C8_defaults_permanent :
    (∀ (st : Favorites.FavStore) (id : String) (obj : Option Station) (lang : Option String),
        Favorites.DEFAULT_IDS.contains id = true → st.favIds.contains id = true →
        Favorites.toggle st id obj lang = st) ∧
    (∀ (calls : List (String × Option Station × Option String)) (st : Favorites.FavStore)
        (id : String), Favorites.DEFAULT_IDS.contains id = true →
        st.favIds.contains id = true →
        (Favorites.applyToggles st calls).favIds.contains id = true) := by
  constructor
  · intro st id obj lang hdef hmem
    have hdef' : id ∈ Favorites.DEFAULT_IDS := by simpa using hdef
    have hmem' : id ∈ st.favIds := by simpa using hmem
    unfold Favorites.toggle
    simp [hmem', hdef']
  · intro calls
    induction calls with
    | nil => intro st id _ h; simpa [Favorites.applyToggles] using h
    | cons c rest ih =>
      intro st id hdef hmem
      have h1 := Favorites.toggle_keeps_default st c.1 c.2.1 c.2.2 id hdef hmem
      simpa [Favorites.applyToggles] using ih _ id hdef h1

/-- C8 witness: the first default id survives a toggle that targets it and a
toggle that removes a non-default favourite. -/
theorem claim_C8_defaults_permanent_witness :
    (Favorites.applyToggles
        { favIds := ["api-96683d44-c7f1-47d3-a9c5-f7d0c65d8b66", "x"],
          extraMap := [], storedIds := [], storedExtra := [] }
        [("api-96683d44-c7f1-47d3-a9c5-f7d0c65d8b66", none, none), ("x", none, none)]
      ).favIds.contains "api-96683d44-c7f1-47d3-a9c5-f7d0c65d8b66" = true :=
  claim_C8_defaults_permanent.2 _ _ _ (by decide) (by decide)

/-- C1: one `play(station)` call retries a rejected stream at most
`MAX_RETRIES` times; when the initial attempt and the retry both fail the
status ends up `error`; and the retry's own failure handler only sets the
status — it never schedules a further attempt. -/
theorem claim_C1_retry_bounded_gives_up :
    (∀ i r : Bool, (Player.playFlow i r).retriesAttempted ≤ Player.MAX_RETRIES) ∧
    (Player.playFlow false false).status = Player.PStatus.error ∧
    (Player.playFlow false false).retriesAttempted = 1 ∧
    (∀ st : Player.RetryState, (Player.retryOutcome st false).status = Player.PStatus.error) ∧
    (∀ (st : Player.RetryState) (ok : Bool),
        (Player.retryOutcome st ok).retriesAttempted = st.retriesAttempted) := by
  refine ⟨by decide, by decide, by decide, ?_, ?_⟩
  · intro st; simp [Player.retryOutcome]
  · intro st ok; cases ok <;> simp [Player.retryOutcome]

/-- C6: the wake lock follows the playback lifecycle: the `pause` and `error`
handlers (and toggling playback off) always end with `_wakeLock = null` and
`_isPlaying = false` and invoke `releaseWakeLock`; every path that enters the
playing state (`'playing'` event, the `play` promise resolution, the resume
branch of `togglePlay`) invokes `requestWakeLock` and, when the request is
supported and granted, holds the lock. -/
theorem claim_C6_wake_lock_lifecycle :
    ∀ (st : Player.PlayerState) (supported granted : Bool),
      (Player.onPause st).wakeLock = false ∧ (Player.onPause st).isPlaying = false ∧
      (Player.onError st).wakeLock = false ∧ (Player.onError st).isPlaying = false ∧
      (Player.togglePlayPause st).wakeLock = false ∧
      (Player.togglePlayPause st).isPlaying = false ∧
      (Player.onPause st).log = st.log ++ [Player.WLEvent.releaseCalled] ∧
      (Player.onError st).log = st.log ++ [Player.WLEvent.releaseCalled] ∧
      (Player.onPlaying supported granted st).isPlaying = true ∧
      (Player.onPlaying supported granted st).log = st.log ++ [Player.WLEvent.requestCalled] ∧
      (Player.playThen supported granted st).log = st.log ++ [Player.WLEvent.requestCalled] ∧
      (Player.resumeThen supported granted st).log = st.log ++ [Player.WLEvent.requestCalled] ∧
      (Player.onPlaying true true st).wakeLock = true ∧
      (Player.playThen true true st).wakeLock = true ∧
      (Player.resumeThen true true st).wakeLock = true := by
  intro st supported granted
  by_cases h : st.wakeLock <;> cases supported <;> cases granted <;>
    simp [Player.onPause, Player.onError, Player.togglePlayPause, Player.onPlaying,
      Player.playThen, Player.resumeThen, Player.requestWakeLock,
      Player.releaseWakeLock, h]

/-- The debounce invariant maintained by the search-input handler: at most
one live timer; a live timer carries the stored debounce id, the 320 ms
delay, and the current non-empty trimmed query; timer ids are below the
fresh-id supply. -/
def App.SearchInv (st : App.AppState) : Prop :=
  st.timers.length ≤ 1 ∧
  ∀ t ∈ st.timers, st.searchDebounce = some t.id ∧ t.delay = 320 ∧
    t.query = jsTrim st.searchQuery ∧ jsTrim st.searchQuery ≠ "" ∧ t.id < st.nextId

/-- `onInput` preserves the debounce invariant. -/
theorem App.searchInv_onInput (st : App.AppState) (v : String)
    (h : App.SearchInv st) : App.SearchInv (App.onInput st v) := by
  obtain ⟨hlen, htimers⟩ := h
  have hfilter : st.timers.filter (fun t => !(st.searchDebounce == some t.id)) = [] := by
    rw [List.filter_eq_nil_iff]
    intro t ht
    simp [(htimers t ht).1]
  unfold App.onInput
  dsimp only
  by_cases hq : jsTrim v = ""
  · rw [if_pos hq]
    refine ⟨?_, ?_⟩
    · simp [App.enterFavouritesMode, App.showFavourites, hfilter]
    · intro t ht
      simp [App.enterFavouritesMode, App.showFavourites, hfilter] at ht
  · rw [if_neg hq]
    split <;>
    · refine ⟨?_, ?_⟩
      · simp [App.leaveFavouritesMode, hfilter]
      · intro t ht
        simp only [App.leaveFavouritesMode] at ht ⊢
        simp [hfilter] at ht
        subst ht
        simp [hq]

/-- Folding any sequence of input events preserves the debounce invariant. -/
theorem App.searchInv_foldl (events : List String) :
    ∀ (st : App.AppState), App.SearchInv st →
      App.SearchInv (events.foldl App.onInput st) := by
  induction events with
  | nil => intro st h; exact h
  | cons e rest ih =>
      intro st h
      exact ih _ (App.searchInv_onInput st e h)

theorem App.searchInv_runInputs (fs : Favorites.FavStore) (events : List String) :
    App.SearchInv (App.runInputs fs events) := by
  have hboot : App.SearchInv (App.bootState fs) := by
    constructor
    · simp [App.bootState, App.enterFavouritesMode, App.showFavourites]
    · intro t ht
      simp [App.bootState, App.enterFavouritesMode, App.showFavourites] at ht
  exact App.searchInv_foldl events _ hboot

/-- C2: over any sequence of search-input events, at most one debounced API
search is pending; a pending search carries a 320 ms delay and the trimmed,
non-empty current query; and each input event cancels the previously
scheduled timer (every timer live after an event is new). -/
theorem claim_C2_debounce_single_pending :
    (∀ (fs : Favorites.FavStore) (events : List String),
      (App.runInputs fs events).timers.length ≤ 1 ∧
      ∀ t ∈ (App.runInputs fs events).timers,
        t.delay = 320 ∧ t.query = jsTrim (App.runInputs fs events).searchQuery ∧
        jsTrim (App.runInputs fs events).searchQuery ≠ "") ∧
    (∀ (st : App.AppState) (v : String), App.SearchInv st →
      ∀ t ∈ (App.onInput st v).timers, t ∉ st.timers) := by
  constructor
  · intro fs events
    obtain ⟨hlen, htimers⟩ := App.searchInv_runInputs fs events
    exact ⟨hlen, fun t ht => ⟨(htimers t ht).2.1, (htimers t ht).2.2.1, (htimers t ht).2.2.2.1⟩⟩
  · intro st v hinv t ht htold
    obtain ⟨hlen, htimers⟩ := hinv
    have hfilter : st.timers.filter (fun x => !(st.searchDebounce == some x.id)) = [] := by
      rw [List.filter_eq_nil_iff]
      intro x hx
      simp [(htimers x hx).1]
    have hid : t.id < st.nextId := (htimers t htold).2.2.2.2
    unfold App.onInput at ht
    dsimp only at ht
    by_cases hq : jsTrim v = ""
    · rw [if_pos hq] at ht
      simp [App.enterFavouritesMode, App.showFavourites, hfilter] at ht
    · rw [if_neg hq] at ht
      split at ht <;>
      · simp only [App.leaveFavouritesMode] at ht
        simp [hfilter] at ht
        subst ht
        simp at hid

/-- C2 witness: after the events "ja","jazz" exactly one timer is pending,
with delay 320 and query "jazz". -/
theorem claim_C2_debounce_single_pending_witness :
    (App.runInputs ⟨[], [], [], []⟩ ["ja", "jazz"]).timers.length ≤ 1 ∧
    ((⟨1, 320, "jazz"⟩ : App.Timer) ∈ (App.runInputs ⟨[], [], [], []⟩ ["ja", "jazz"]).timers ∧
      (⟨1, 320, "jazz"⟩ : App.Timer).delay = 320 ∧
      (⟨1, 320, "jazz"⟩ : App.Timer).query
        = jsTrim (App.runInputs ⟨[], [], [], []⟩ ["ja", "jazz"]).searchQuery) := by
  refine ⟨(claim_C2_debounce_single_pending.1 ⟨[], [], [], []⟩ ["ja", "jazz"]).1, by decide,
    ?_, ?_⟩
  · exact ((claim_C2_debounce_single_pending.1 ⟨[], [], [], []⟩ ["ja", "jazz"]).2 _ (by decide)).1
  · exact ((claim_C2_debounce_single_pending.1 ⟨[], [], [], []⟩ ["ja", "jazz"]).2 _ (by decide)).2.1

/-- C4: after every search-input event, favourites mode is active iff the
trimmed query is empty; an emptied query re-enters favourites mode with the
language tab reset to `all` and the favourites pool displayed, rendered and
set as the playlist; a non-empty query leaves favourites mode; and the
clear-search and header heart buttons both enter favourites mode with the
language reset to `all`. -/
theorem claim_C4_two_mode_state_machine :
    ∀ (st : App.AppState) (v : String),
      ((App.onInput st v).showingFavourites = true ↔
        jsTrim (App.onInput st v).searchQuery = "") ∧
      (App.onInput st v).searchQuery = v ∧
      (jsTrim v = "" →
        (App.onInput st v).activeLanguage = "all" ∧
        (App.onInput st v).displayed = App.favouritesPool st.store "all" ∧
        (App.onInput st v).rendered = (App.onInput st v).displayed ∧
        (App.onInput st v).playlist = (App.onInput st v).displayed) ∧
      (jsTrim v ≠ "" → (App.onInput st v).showingFavourites = false) ∧
      (App.onClearClick st).showingFavourites = true ∧
      (App.onClearClick st).activeLanguage = "all" ∧
      (App.onFavToggleClick st).showingFavourites = true ∧
      (App.onFavToggleClick st).activeLanguage = "all" := by
  intro st v
  by_cases hq : jsTrim v = "" <;>
    [simp [App.onInput, App.enterFavouritesMode, App.leaveFavouritesMode, App.showFavourites,
      App.onClearClick, App.onFavToggleClick, hq];
     (simp [App.onInput, App.enterFavouritesMode, App.leaveFavouritesMode, App.showFavourites,
        App.onClearClick, App.onFavToggleClick, hq]
      split <;> simp_all)]

/-- C4 witness: from a boot state, typing "rock" leaves favourites mode and
clearing the input re-enters it with the language tab reset. -/
theorem claim_C4_two_mode_state_machine_witness :
    (jsTrim "rock" ≠ "" ∧
      (App.onInput (App.bootState ⟨[], [], [], []⟩) "rock").showingFavourites = false) ∧
    (jsTrim "" = "" ∧
      (App.onInput (App.bootState ⟨[], [], [], []⟩) "").activeLanguage = "all") :=
  ⟨⟨by decide, (claim_C4_two_mode_state_machine (App.bootState ⟨[], [], [], []⟩)
      "rock").2.2.2.1 (by decide)⟩,
   ⟨by decide, ((claim_C4_two_mode_state_machine (App.bootState ⟨[], [], [], []⟩)
      "").2.2.1 (by decide)).1⟩⟩

/-- Overwriting an existing key and reading it back yields the new value. -/
theorem Favorites.objGet_map_set (k : String) (v : Station) :
    ∀ m : List (String × Station), m.any (fun q => q.1 == k) = true →
      Favorites.objGet (m.map (fun q => if q.1 == k then (k, v) else q)) k = some v := by
  intro m
  induction m with
  | nil => simp
  | cons p rest ih =>
      intro hany
      by_cases hp : (p.1 == k) = true
      · simp [Favorites.objGet, List.find?, hp]
      · have hrest : rest.any (fun q => q.1 == k) = true := by
          simpa [hp] using hany
        simp only [List.map_cons, hp, if_false, Bool.false_eq_true]
        unfold Favorites.objGet at ih ⊢
        rw [List.find?_cons_of_neg _ (by simpa using hp)]
        exact ih hrest

/-- Appending a fresh key and reading it back yields the value. -/
theorem Favorites.objGet_append_single (k : String) (v : Station) :
    ∀ m : List (String × Station), m.any (fun q => q.1 == k) = false →
      Favorites.objGet (m ++ [(k, v)]) k = some v := by
  intro m
  induction m with
  | nil => simp [Favorites.objGet, List.find?]
  | cons p rest ih =>
      intro hany
      simp only [List.any_cons, Bool.or_eq_false_iff] at hany
      simp only [List.cons_append]
      unfold Favorites.objGet at ih ⊢
      rw [List.find?_cons_of_neg _ (by simp [hany.1])]
      exact ih hany.2

/-- Setting a key in a JS object map and reading it back yields the value. -/
theorem Favorites.objGet_objSet (m : List (String × Station)) (k : String) (v : Station) :
    Favorites.objGet (Favorites.objSet m k v) k = some v := by
  unfold Favorites.objSet
  cases hany : m.any (fun q => q.1 == k) with
  | true =>
      simp only [hany, if_true]
      exact Favorites.objGet_map_set k v m hany
  | false =>
      simp only [hany, Bool.false_eq_true, if_false]
      exact Favorites.objGet_append_single k v m hany

/-- A `toggle` from a storage-synchronized state leaves storage synchronized
and stores an added station under its id with `favLanguage || 'other'`. -/
theorem Favorites.toggle_sync (st : Favorites.FavStore) (id : String)
    (obj : Option Station) (lang : Option String)
    (hids : st.storedIds = st.favIds) (hextra : st.storedExtra = st.extraMap) :
    (Favorites.toggle st id obj lang).storedIds
        = (Favorites.toggle st id obj lang).favIds ∧
      (Favorites.toggle st id obj lang).storedExtra
        = (Favorites.toggle st id obj lang).extraMap ∧
      (id ∉ st.favIds → ∀ o : Station, obj = some o →
        Favorites.objGet (Favorites.toggle st id obj lang).storedExtra id
          = some { o with favLanguage := some (jsOr (lang.getD "") "other") }) := by
  unfold Favorites.toggle
  split
  · rename_i hin
    have hin' : id ∈ st.favIds := by simpa using hin
    split
    · exact ⟨hids, hextra, fun h => absurd hin' h⟩
    · dsimp only
      refine ⟨rfl, ?_, fun h => absurd hin' h⟩
      split <;> simp [hextra]
  · rename_i hin
    cases obj with
    | none => exact ⟨rfl, hextra, fun _ o ho => by cases ho⟩
    | some o =>
        refine ⟨rfl, rfl, fun _ o2 ho => ?_⟩
        cases ho
        exact Favorites.objGet_objSet st.extraMap id _

/-- Storage synchronization is preserved along any sequence of toggles. -/
theorem Favorites.applyToggles_sync
    (calls : List (String × Option Station × Option String)) :
    ∀ (st : Favorites.FavStore), st.storedIds = st.favIds →
      st.storedExtra = st.extraMap →
      (Favorites.applyToggles st calls).storedIds
          = (Favorites.applyToggles st calls).favIds ∧
        (Favorites.applyToggles st calls).storedExtra
          = (Favorites.applyToggles st calls).extraMap := by
  induction calls with
  | nil => intro st h1 h2; exact ⟨h1, h2⟩
  | cons c rest ih =>
      intro st h1 h2
      have h := Favorites.toggle_sync st c.1 c.2.1 c.2.2 h1 h2
      simpa [Favorites.applyToggles] using ih _ h.1 h.2.1

/-- C3: every `toggle` call keeps `localStorage` in sync with memory (along
any toggle sequence from a freshly loaded state): the stored id list equals
the in-memory `favIds`, the stored extra map equals the in-memory
`extraMap`, an added station is stored under its id as `stationObj` extended
with `favLanguage || 'other'`, and a reload (`loadIds`/`loadExtra`)
reproduces the same favourites state. -/
theorem claim_C3_favourites_persist_round_trip :
    (∀ (st : Favorites.FavStore) (id : String) (obj : Option Station) (lang : Option String),
      st.storedIds = st.favIds → st.storedExtra = st.extraMap →
      ((Favorites.toggle st id obj lang).storedIds
          = (Favorites.toggle st id obj lang).favIds ∧
        (Favorites.toggle st id obj lang).storedExtra
          = (Favorites.toggle st id obj lang).extraMap ∧
        (id ∉ st.favIds → ∀ o : Station, obj = some o →
          Favorites.objGet (Favorites.toggle st id obj lang).storedExtra id
            = some { o with favLanguage := some (jsOr (lang.getD "") "other") }) ∧
        (Favorites.reloadStore (Favorites.toggle st id obj lang)).favIds
          = (Favorites.toggle st id obj lang).favIds ∧
        (Favorites.reloadStore (Favorites.toggle st id obj lang)).extraMap
          = (Favorites.toggle st id obj lang).extraMap)) ∧
    (∀ (st0 : Favorites.FavStore) (calls : List (String × Option Station × Option String)),
      (Favorites.applyToggles (Favorites.reloadStore st0) calls).storedIds
          = (Favorites.applyToggles (Favorites.reloadStore st0) calls).favIds ∧
        (Favorites.applyToggles (Favorites.reloadStore st0) calls).storedExtra
          = (Favorites.applyToggles (Favorites.reloadStore st0) calls).extraMap) := by
  constructor
  · intro st id obj lang hids hextra
    have hmain := Favorites.toggle_sync st id obj lang hids hextra
    exact ⟨hmain.1, hmain.2.1, hmain.2.2, by simp [Favorites.reloadStore, hmain.1],
      by simp [Favorites.reloadStore, hmain.2.1]⟩
  · intro st0 calls
    exact Favorites.applyToggles_sync calls _ rfl rfl

/-- C3 witness: adding a fresh station with a language stores it (with that
`favLanguage`) and the reload reproduces the in-memory state. -/
theorem claim_C3_favourites_persist_round_trip_witness :
    (Favorites.objGet
        (Favorites.toggle ⟨[], [], [], []⟩ "api-x"
          (some { id := "api-x", name := "X", logo := "", country := "", countryCode := "",
                  language := "", genre := "Pop", tags := [], url := "http://x", homepage := "",
                  bitrate := 0, codec := "", votes := 0, clickCount := 0, favLanguage := none })
          (some "Russian")).storedExtra "api-x"
      = some { id := "api-x", name := "X", logo := "", country := "", countryCode := "",
               language := "", genre := "Pop", tags := [], url := "http://x", homepage := "",
               bitrate := 0, codec := "", votes := 0, clickCount := 0,
               favLanguage := some "Russian" }) ∧
    (Favorites.reloadStore
        (Favorites.toggle ⟨[], [], [], []⟩ "api-x"
          (some { id := "api-x", name := "X", logo := "", country := "", countryCode := "",
                  language := "", genre := "Pop", tags := [], url := "http://x", homepage := "",
                  bitrate := 0, codec := "", votes := 0, clickCount := 0, favLanguage := none })
          (some "Russian"))).favIds
      = (Favorites.toggle ⟨[], [], [], []⟩ "api-x"
          (some { id := "api-x", name := "X", logo := "", country := "", countryCode := "",
                  language := "", genre := "Pop", tags := [], url := "http://x", homepage := "",
                  bitrate := 0, codec := "", votes := 0, clickCount := 0, favLanguage := none })
          (some "Russian")).favIds := by
  refine ⟨?_, ?_⟩
  · have h := (claim_C3_favourites_persist_round_trip.1 ⟨[], [], [], []⟩ "api-x"
      (some { id := "api-x", name := "X", logo := "", country := "", countryCode := "",
              language := "", genre := "Pop", tags := [], url := "http://x", homepage := "",
              bitrate := 0, codec := "", votes := 0, clickCount := 0, favLanguage := none })
      (some "Russian") rfl rfl).2.2.1 (by decide) _ rfl
    simpa [jsOr] using h
  · exact (claim_C3_favourites_persist_round_trip.1 ⟨[], [], [], []⟩ "api-x"
      (some { id := "api-x", name := "X", logo := "", country := "", countryCode := "",
              language := "", genre := "Pop", tags := [], url := "http://x", homepage := "",
              bitrate := 0, codec := "", votes := 0, clickCount := 0, favLanguage := none })
      (some "Russian") rfl rfl).2.2.2.1

/-- `mapGenre` only ever produces one of the eight fixed genres. -/
theorem RadioAPI.mapGenre_mem_GENRES (t : String) :
    RadioAPI.mapGenre t ∈ RadioAPI.GENRES := by
  unfold RadioAPI.mapGenre
  dsimp only
  split_ifs <;> decide

/-- C5: every station returned by the search pipeline is the normalization of
some raw station from the response: its id is `api-` ++ the raw
`stationuuid`, its url is non-empty and comes from `url_resolved` with
fallback to `url`, its genre is from the fixed `mapGenre` vocabulary, it has
at most 5 tags, and an absent raw name defaults to `Unknown`; raw stations
normalizing to an empty url are excluded. -/
theorem claim_C5_search_normalizes_and_filters :
    (∀ (raw : List RawStation) (s : Station), s ∈ RadioAPI.searchResults raw →
      ∃ r ∈ raw, s = RadioAPI.normalize r ∧
        s.id = "api-" ++ r.stationuuid ∧
        s.url ≠ "" ∧
        s.url = jsOr (jsOr r.url_resolved r.url) "" ∧
        s.genre ∈ RadioAPI.GENRES ∧
        s.tags.length ≤ 5 ∧
        (r.name = "" → s.name = "Unknown")) ∧
    (∀ (raw : List RawStation) (r : RawStation), r ∈ raw →
      (RadioAPI.normalize r).url = "" →
      RadioAPI.normalize r ∉ RadioAPI.searchResults raw) := by
  constructor
  · intro raw s hs
    obtain ⟨hmem, hurl⟩ := List.mem_filter.mp hs
    obtain ⟨r, hr, hrs⟩ := List.mem_map.mp hmem
    refine ⟨r, hr, hrs.symm, ?_, ?_, ?_, ?_, ?_, ?_⟩
    · rw [← hrs]
      rfl
    · rw [← hrs] at hurl ⊢
      simpa [bne_iff_ne] using hurl
    · rw [← hrs]
      rfl
    · rw [← hrs]
      exact RadioAPI.mapGenre_mem_GENRES _
    · rw [← hrs]
      exact List.length_take_le _ _
    · intro hname
      rw [← hrs]
      simp [RadioAPI.normalize, jsOr, hname]
  · intro raw r _ hurl hmem
    have := (List.mem_filter.mp hmem).2
    simp [bne_iff_ne, hurl] at this

/-- C5 witness: a raw station with both urls present survives with the
claimed shape, and one with no url is excluded. -/
theorem claim_C5_search_normalizes_and_filters_witness :
    (RadioAPI.normalize rawU1 ∈ RadioAPI.searchResults rawList1 ∧
      ∃ r ∈ rawList1,
        RadioAPI.normalize rawU1 = RadioAPI.normalize r ∧
        (RadioAPI.normalize rawU1).id = "api-" ++ r.stationuuid ∧
        (RadioAPI.normalize rawU1).url ≠ "" ∧
        (RadioAPI.normalize rawU1).url = jsOr (jsOr r.url_resolved r.url) "" ∧
        (RadioAPI.normalize rawU1).genre ∈ RadioAPI.GENRES ∧
        (RadioAPI.normalize rawU1).tags.length ≤ 5 ∧
        (r.name = "" → (RadioAPI.normalize rawU1).name = "Unknown")) ∧
    RadioAPI.normalize rawU2 ∉ RadioAPI.searchResults rawList1 :=
  ⟨⟨by decide,
    claim_C5_search_normalizes_and_filters.1 rawList1 _ (by decide)⟩,
   claim_C5_search_normalizes_and_filters.2 rawList1 rawU2 (by decide) (by decide)⟩

/-- C7: in favourites mode the displayed list is exactly the saved stations
whose id is in the favourites set, restricted — when a language tab other
than `all` is active — to those whose `favLanguage || 'other'` equals the
active language; the same list is set as the player playlist and rendered. -/
theorem claim_C7_favourites_view_exact :
    ∀ (st : App.AppState),
      (App.showFavourites st).playlist = (App.showFavourites st).displayed ∧
      (App.showFavourites st).rendered = (App.showFavourites st).displayed ∧
      ∀ s : Station,
        s ∈ (App.showFavourites st).displayed ↔
          (s ∈ Favorites.getSavedStations st.store ∧
            st.store.favIds.contains s.id = true ∧
            (st.activeLanguage ≠ "all" →
              jsOr (s.favLanguage.getD "") "other" = st.activeLanguage)) := by
  intro st
  refine ⟨rfl, rfl, fun s => ?_⟩
  show s ∈ App.favouritesPool st.store st.activeLanguage ↔ _
  unfold App.favouritesPool
  dsimp only
  by_cases hl : st.activeLanguage = "all"
  · have hb : (st.activeLanguage != "all") = false := by simp [hl]
    rw [hb]
    simp [List.mem_filter, hl]
  · have hb : (st.activeLanguage != "all") = true := by simp [hl]
    rw [hb]
    simp only [if_true, List.mem_filter]
    constructor
    · rintro ⟨⟨hmem, hid⟩, hlang⟩
      exact ⟨hmem, hid, fun _ => by simpa using hlang⟩
    · rintro ⟨hmem, hid, hlang⟩
      exact ⟨⟨hmem, hid⟩, by simpa using hlang hl⟩

/-- C7 witness: a favourited saved station is displayed under the `all` tab
of a concrete state. -/
theorem claim_C7_favourites_view_exact_witness :
    ({ id := "api-x", name := "X", logo := "", country := "", countryCode := "",
       language := "", genre := "Pop", tags := [], url := "http://x", homepage := "",
       bitrate := 0, codec := "", votes := 0, clickCount := 0,
       favLanguage := some "Russian" } : Station)
      ∈ (App.showFavourites (App.bootState
          ⟨["api-x"],
           [("api-x",
             { id := "api-x", name := "X", logo := "", country := "", countryCode := "",
               language := "", genre := "Pop", tags := [], url := "http://x", homepage := "",
               bitrate := 0, codec := "", votes := 0, clickCount := 0,
               favLanguage := some "Russian" })],
           ["api-x"], []⟩)).displayed :=
  ((claim_C7_favourites_view_exact _).2.2 _).mpr ⟨by decide, by decide, by decide⟩

/-- One replacement step on a cons cell. -/
theorem StationsUI.replaceAllChar_cons (c : Char) (rep : List Char) (a : Char) (l : List Char) :
    StationsUI.replaceAllChar c rep (a :: l)
      = (if a = c then rep else [a]) ++ StationsUI.replaceAllChar c rep l := by
  simp [StationsUI.replaceAllChar]

/-- Replacement distributes over append. -/
theorem StationsUI.replaceAllChar_append (c : Char) (rep : List Char) (l₁ l₂ : List Char) :
    StationsUI.replaceAllChar c rep (l₁ ++ l₂)
      = StationsUI.replaceAllChar c rep l₁ ++ StationsUI.replaceAllChar c rep l₂ := by
  simp [StationsUI.replaceAllChar]

/-- The five sequential replacements act block-wise, one input character at a
time, and on a single character they produce `escChar`. -/
theorem StationsUI.escapeHtmlChars_cons (a : Char) (l : List Char) :
    StationsUI.escapeHtmlChars (a :: l)
      = StationsUI.escChar a ++ StationsUI.escapeHtmlChars l := by
  by_cases h1 : a = '&'
  · subst h1
    simp [StationsUI.escapeHtmlChars, StationsUI.escChar, StationsUI.replaceAllChar_cons,
      StationsUI.replaceAllChar_append, StationsUI.replaceAllChar]
  · by_cases h2 : a = '<'
    · subst h2
      simp [StationsUI.escapeHtmlChars, StationsUI.escChar, StationsUI.replaceAllChar_cons,
        StationsUI.replaceAllChar_append, StationsUI.replaceAllChar]
    · by_cases h3 : a = '>'
      · subst h3
        simp [StationsUI.escapeHtmlChars, StationsUI.escChar, StationsUI.replaceAllChar_cons,
          StationsUI.replaceAllChar_append, StationsUI.replaceAllChar]
      · by_cases h4 : a = '"'
        · subst h4
          simp [StationsUI.escapeHtmlChars, StationsUI.escChar, StationsUI.replaceAllChar_cons,
            StationsUI.replaceAllChar_append, StationsUI.replaceAllChar]
        · by_cases h5 : a = '\''
          · subst h5
            simp [StationsUI.escapeHtmlChars, StationsUI.escChar, StationsUI.replaceAllChar_cons,
              StationsUI.replaceAllChar_append, StationsUI.replaceAllChar]
          · simp [StationsUI.escapeHtmlChars, StationsUI.escChar,
              StationsUI.replaceAllChar_cons, StationsUI.replaceAllChar_append,
              StationsUI.replaceAllChar, h1, h2, h3, h4, h5]

/-- A single escaped block contains no raw special character. -/
theorem StationsUI.noRaw_escChar (a : Char) :
    StationsUI.noRawSpecialsB (StationsUI.escChar a) = true := by
  unfold StationsUI.escChar
  split_ifs with h1 h2 h3 h4 h5
  · decide
  · decide
  · decide
  · decide
  · decide
  · simp [StationsUI.noRawSpecialsB, StationsUI.rawSpecials, h2, h3, h4, h5]

/-- `ampOkB` skips a non-`&` head. -/
theorem StationsUI.ampOkB_cons_ne (a : Char) (l : List Char) (h : a ≠ '&') :
    StationsUI.ampOkB (a :: l) = StationsUI.ampOkB l := by
  simp [StationsUI.ampOkB, h]

/-- `ampOkB` at an `&` head checks for an entity tail. -/
theorem StationsUI.ampOkB_amp (l : List Char) :
    StationsUI.ampOkB ('&' :: l)
      = ((StationsUI.entityTails.any (fun e => isPrefixB e l)) && StationsUI.ampOkB l) := by
  simp [StationsUI.ampOkB]

/-- Prepending one escaped block preserves `ampOkB`. -/
theorem StationsUI.ampOk_escChar_append (a : Char) (t : List Char)
    (h : StationsUI.ampOkB t = true) :
    StationsUI.ampOkB (StationsUI.escChar a ++ t) = true := by
  unfold StationsUI.escChar
  split_ifs with h1 h2 h3 h4 h5
  · show StationsUI.ampOkB ('&' :: 'a' :: 'm' :: 'p' :: ';' :: t) = true
    have hpre : isPrefixB ['a', 'm', 'p', ';'] ('a' :: 'm' :: 'p' :: ';' :: t) = true := by
      simp [isPrefixB]
    rw [StationsUI.ampOkB_amp,
      List.any_eq_true.mpr ⟨['a', 'm', 'p', ';'], by decide, hpre⟩, Bool.true_and,
      StationsUI.ampOkB_cons_ne _ _ (by decide), StationsUI.ampOkB_cons_ne _ _ (by decide),
      StationsUI.ampOkB_cons_ne _ _ (by decide), StationsUI.ampOkB_cons_ne _ _ (by decide), h]
  · show StationsUI.ampOkB ('&' :: 'l' :: 't' :: ';' :: t) = true
    have hpre : isPrefixB ['l', 't', ';'] ('l' :: 't' :: ';' :: t) = true := by
      simp [isPrefixB]
    rw [StationsUI.ampOkB_amp,
      List.any_eq_true.mpr ⟨['l', 't', ';'], by decide, hpre⟩, Bool.true_and,
      StationsUI.ampOkB_cons_ne _ _ (by decide), StationsUI.ampOkB_cons_ne _ _ (by decide),
      StationsUI.ampOkB_cons_ne _ _ (by decide), h]
  · show StationsUI.ampOkB ('&' :: 'g' :: 't' :: ';' :: t) = true
    have hpre : isPrefixB ['g', 't', ';'] ('g' :: 't' :: ';' :: t) = true := by
      simp [isPrefixB]
    rw [StationsUI.ampOkB_amp,
      List.any_eq_true.mpr ⟨['g', 't', ';'], by decide, hpre⟩, Bool.true_and,
      StationsUI.ampOkB_cons_ne _ _ (by decide), StationsUI.ampOkB_cons_ne _ _ (by decide),
      StationsUI.ampOkB_cons_ne _ _ (by decide), h]
  · show StationsUI.ampOkB ('&' :: 'q' :: 'u' :: 'o' :: 't' :: ';' :: t) = true
    have hpre : isPrefixB ['q', 'u', 'o', 't', ';']
        ('q' :: 'u' :: 'o' :: 't' :: ';' :: t) = true := by
      simp [isPrefixB]
    rw [StationsUI.ampOkB_amp,
      List.any_eq_true.mpr ⟨['q', 'u', 'o', 't', ';'], by decide, hpre⟩, Bool.true_and,
      StationsUI.ampOkB_cons_ne _ _ (by decide), StationsUI.ampOkB_cons_ne _ _ (by decide),
      StationsUI.ampOkB_cons_ne _ _ (by decide), StationsUI.ampOkB_cons_ne _ _ (by decide),
      StationsUI.ampOkB_cons_ne _ _ (by decide), h]
  · show StationsUI.ampOkB ('&' :: '#' :: '0' :: '3' :: '9' :: ';' :: t) = true
    have hpre : isPrefixB ['#', '0', '3', '9', ';']
        ('#' :: '0' :: '3' :: '9' :: ';' :: t) = true := by
      simp [isPrefixB]
    rw [StationsUI.ampOkB_amp,
      List.any_eq_true.mpr ⟨['#', '0', '3', '9', ';'], by decide, hpre⟩, Bool.true_and,
      StationsUI.ampOkB_cons_ne _ _ (by decide), StationsUI.ampOkB_cons_ne _ _ (by decide),
      StationsUI.ampOkB_cons_ne _ _ (by decide), StationsUI.ampOkB_cons_ne _ _ (by decide),
      StationsUI.ampOkB_cons_ne _ _ (by decide), h]
  · show StationsUI.ampOkB (a :: t) = true
    rw [StationsUI.ampOkB_cons_ne _ _ h1, h]

/-- The escaped form of any character list has no raw specials and every `&`
starts an entity. -/
theorem StationsUI.escapeHtmlChars_wellFormed (l : List Char) :
    StationsUI.noRawSpecialsB (StationsUI.escapeHtmlChars l) = true ∧
    StationsUI.ampOkB (StationsUI.escapeHtmlChars l) = true := by
  induction l with
  | nil => exact ⟨rfl, rfl⟩
  | cons a l ih =>
      rw [StationsUI.escapeHtmlChars_cons]
      constructor
      · have hb := StationsUI.noRaw_escChar a
        have ht := ih.1
        simp only [StationsUI.noRawSpecialsB, List.all_append] at hb ht ⊢
        simp at hb ht ⊢
        exact ⟨hb, ht⟩
      · exact StationsUI.ampOk_escChar_append a _ ih.2

/-- C9: for every string, `escapeHtml` output contains no raw `<`, `>`, `"`
or `'`, and every `&` in it starts one of the entities `&amp;`, `&lt;`,
`&gt;`, `&quot;`, `&#039;`; non-string inputs are returned unchanged except
`null`/`undefined`, which become the empty string. -/
theorem claim_C9_escapeHtml_output_safe :
    (∀ s : String,
      StationsUI.noRawSpecialsB (StationsUI.escapeHtml s).data = true ∧
      StationsUI.ampOkB (StationsUI.escapeHtml s).data = true ∧
      StationsUI.escapeHtmlJS (StationsUI.JSVal.str s)
        = StationsUI.JSVal.str (StationsUI.escapeHtml s)) ∧
    (∀ n : Int, StationsUI.escapeHtmlJS (StationsUI.JSVal.num n) = StationsUI.JSVal.num n) ∧
    (∀ b : Bool,
      StationsUI.escapeHtmlJS (StationsUI.JSVal.boolean b) = StationsUI.JSVal.boolean b) ∧
    StationsUI.escapeHtmlJS StationsUI.JSVal.null = StationsUI.JSVal.str "" ∧
    StationsUI.escapeHtmlJS StationsUI.JSVal.undef = StationsUI.JSVal.str "" := by
  refine ⟨fun s => ⟨?_, ?_, rfl⟩, fun n => rfl, fun b => rfl, rfl, rfl⟩
  · exact (StationsUI.escapeHtmlChars_wellFormed s.data).1
  · exact (StationsUI.escapeHtmlChars_wellFormed s.data).2

/-- C10 counterexample: the `seen` set built in `search` is computed from the
name results only and never extended, so two tag results sharing a
`stationuuid` (not present among the name results) both survive the merge —
the merged list then contains the uuid twice, contradicting the claim that
no `stationuuid` occurs twice. -/
theorem claim_C10_merge_dedup_counterexample :
    ¬ ((RadioAPI.mergeRaw (some []) (some [rawDupA, rawDupB])).map
        (fun r => r.stationuuid)).Nodup := by decide

/-- C10 (amended): the merged list is the name results (in order, as a
prefix) followed by exactly those tag results whose `stationuuid` is not
among the name results' uuids; a rejected request contributes the empty
list; and — provided the name results and the tag results each carry
pairwise-distinct `stationuuid`s — no `stationuuid` occurs twice in the
merge. -/
theorem claim_C10_merge_dedup_amended :
    ∀ (nameRes tagRes : Option (List RawStation)),
      ((nameRes.getD []) <+: RadioAPI.mergeRaw nameRes tagRes) ∧
      (∀ s : RawStation, s ∈ RadioAPI.mergeRaw nameRes tagRes ↔
          (s ∈ nameRes.getD [] ∨ (s ∈ tagRes.getD [] ∧
            s.stationuuid ∉ (nameRes.getD []).map (fun r => r.stationuuid)))) ∧
      RadioAPI.mergeRaw none tagRes = RadioAPI.mergeRaw (some []) tagRes ∧
      RadioAPI.mergeRaw nameRes none = RadioAPI.mergeRaw nameRes (some []) ∧
      (((nameRes.getD []).map (fun r => r.stationuuid)).Nodup →
        ((tagRes.getD []).map (fun r => r.stationuuid)).Nodup →
        ((RadioAPI.mergeRaw nameRes tagRes).map (fun r => r.stationuuid)).Nodup) := by
  intro nameRes tagRes
  refine ⟨List.prefix_append _ _, ?_, rfl, rfl, ?_⟩
  · intro s
    simp [RadioAPI.mergeRaw, List.mem_filter]
  · intro hn ht
    rw [RadioAPI.mergeRaw, List.map_append, List.nodup_append]
    refine ⟨hn, ?_, ?_⟩
    · exact ht.sublist (List.Sublist.map _ (List.filter_sublist _))
    · intro u hu hu2
      obtain ⟨s, hs, hsu⟩ := List.mem_map.mp hu2
      have hnotin := (List.mem_filter.mp hs).2
      obtain ⟨a, ha, hau⟩ := List.mem_map.mp hu
      have hni : ∀ a2 ∈ nameRes.getD [], ¬ a2.stationuuid = s.stationuuid := by
        simpa using hnotin
      exact hni a ha (hau.trans hsu.symm)

/-- C10 amended witness: on responses with internally distinct uuids, the
merge keeps the name results as a prefix and has pairwise distinct uuids. -/
theorem claim_C10_merge_dedup_amended_witness :
    (((some [rawU1] : Option (List RawStation)).getD [])
        <+: RadioAPI.mergeRaw (some [rawU1]) (some [rawDupA, rawU1])) ∧
    ((RadioAPI.mergeRaw (some [rawU1]) (some [rawDupA, rawU1])).map
        (fun r => r.stationuuid)).Nodup :=
  ⟨(claim_C10_merge_dedup_amended (some [rawU1]) (some [rawDupA, rawU1])).1,
   (claim_C10_merge_dedup_amended (some [rawU1]) (some [rawDupA, rawU1])).2.2.2.2
     (by decide) (by decide)⟩

end Radio
